import Mathlib

/-
Shallow embedding of the DryIce RTC driver (rtc-imxdi style driver found in
this repository). The driver manages a battery-backed secure counter and
tamper monitor with a register file, a recovery state machine and time and
NVRAM accessors. Registers are modelled as 32-bit values (Nat with explicit
masking); the status register is write-1-to-clear, all other registers are
plain stores. Each raw register write is recorded in an ordered trace, and
the power-supply advisory messages emitted by di_what_is_to_be_done are
recorded as well, since they distinguish the two unrecoverable error kinds.
Log-only statements (dev_dbg, dev_warn, dev_crit) with no other effect are
omitted from the model.
-/

namespace DryIce

/- Register byte offsets, copied from the source register definitions. -/

def DTCMR : Nat := 0x00
def DTCLR : Nat := 0x04
def DCAMR : Nat := 0x08
def DCALR : Nat := 0x0c
def DCAMR_UNSET : Nat := 0xFFFFFFFF
def DCR : Nat := 0x10
def DSR : Nat := 0x14
def DIER : Nat := 0x18
def DMCR : Nat := 0x1c
def DTCR : Nat := 0x28
def DGPR : Nat := 0x3c

/- Control register bits. -/

def DCR_TDCHL : Nat := 1 <<< 30
def DCR_TDCSL : Nat := 1 <<< 29
def DCR_KSSL : Nat := 1 <<< 27
def DCR_MCHL : Nat := 1 <<< 20
def DCR_MCSL : Nat := 1 <<< 19
def DCR_TCHL : Nat := 1 <<< 18
def DCR_TCSL : Nat := 1 <<< 17
def DCR_FSHL : Nat := 1 <<< 16
def DCR_TCE : Nat := 1 <<< 3
def DCR_MCE : Nat := 1 <<< 2

/- Status register bits. -/

def DSR_WTD : Nat := 1 <<< 23
def DSR_ETBD : Nat := 1 <<< 22
def DSR_ETAD : Nat := 1 <<< 21
def DSR_EBD : Nat := 1 <<< 20
def DSR_SAD : Nat := 1 <<< 19
def DSR_TTD : Nat := 1 <<< 18
def DSR_CTD : Nat := 1 <<< 17
def DSR_VTD : Nat := 1 <<< 16
def DSR_WBF : Nat := 1 <<< 10
def DSR_WNF : Nat := 1 <<< 9
def DSR_WCF : Nat := 1 <<< 8
def DSR_WEF : Nat := 1 <<< 7
def DSR_CAF : Nat := 1 <<< 4
def DSR_MCO : Nat := 1 <<< 3
def DSR_TCO : Nat := 1 <<< 2
def DSR_NVF : Nat := 1 <<< 1
def DSR_SVF : Nat := 1 <<< 0

/- Error numbers used by the driver (returned negated, Linux style). -/

def EPERM : Int := 1
def EIOerr : Int := 5
def ENODEV : Int := 19
def EINVAL : Int := 22

/-- The DryIce register file, one field per named register. -/
structure Regs where
  dtcmr : Nat := 0
  dtclr : Nat := 0
  dcamr : Nat := 0
  dcalr : Nat := 0
  dcr : Nat := 0
  dsr : Nat := 0
  dier : Nat := 0
  dmcr : Nat := 0
  dtcr : Nat := 0
  dgpr : Nat := 0
  deriving DecidableEq

/-- readl: read a register by byte offset. Offsets not in the map read 0. -/
def readl (r : Regs) (reg : Nat) : Nat :=
  if reg = DTCMR then r.dtcmr
  else if reg = DTCLR then r.dtclr
  else if reg = DCAMR then r.dcamr
  else if reg = DCALR then r.dcalr
  else if reg = DCR then r.dcr
  else if reg = DSR then r.dsr
  else if reg = DIER then r.dier
  else if reg = DMCR then r.dmcr
  else if reg = DTCR then r.dtcr
  else if reg = DGPR then r.dgpr
  else 0

/-- The effect of writel on the register file. The value is truncated to 32
bits. Status-register bits are write-1-to-clear (writing a 1 clears that
flag), as the driver relies on when clearing CAF, NVF, TCO, SVF and the
tamper flags; every other register is a plain store. -/
def storeReg (r : Regs) (reg val : Nat) : Regs :=
  let v := val % 2 ^ 32
  if reg = DTCMR then { r with dtcmr := v }
  else if reg = DTCLR then { r with dtclr := v }
  else if reg = DCAMR then { r with dcamr := v }
  else if reg = DCALR then { r with dcalr := v }
  else if reg = DCR then { r with dcr := v }
  else if reg = DSR then { r with dsr := r.dsr &&& (0xFFFFFFFF ^^^ v) }
  else if reg = DIER then { r with dier := v }
  else if reg = DMCR then { r with dmcr := v }
  else if reg = DTCR then { r with dtcr := v }
  else if reg = DGPR then { r with dgpr := v }
  else r

/-- Device state: the registers, the ordered trace of raw register writes
(offset, 32-bit value on the bus), and the power-supply names passed to
di_what_is_to_be_done. -/
structure Di where
  regs : Regs
  writes : List (Nat × Nat) := []
  msgs : List String := []
  deriving DecidableEq

/-- A raw writel through the device state, recording the write. -/
def writeReg (s : Di) (val reg : Nat) : Di :=
  { s with regs := storeReg s.regs reg val,
           writes := s.writes ++ [(reg, val % 2 ^ 32)] }

/-- di_write_busy_wait: register write followed by a fixed settling delay.
The delay has no observable effect in the model. -/
def di_write_busy_wait (s : Di) (val reg : Nat) : Di :=
  writeReg s val reg

/-- di_what_is_to_be_done: emit the advisory naming the power supply that
must be cycled ("battery" for a hard lock, "main" for a soft lock). -/
def di_what_is_to_be_done (s : Di) (power_supply : String) : Di :=
  { s with msgs := s.msgs ++ [power_supply] }

/-- nvstore_write: the NVRAM adapter write. Rejects nothing: a length other
than 4 bytes returns 0 with no register access; a 4-byte payload is a single
unconfirmed write to the general purpose register. The unused reg argument
of the storage bus contract is kept. -/
def nvstore_write (s : Di) (_reg : Nat) (val : Nat) (bytes : Nat) : Int × Di :=
  if bytes ≠ 4 then (0, s)
  else (0, writeReg s val DGPR)

/-- nvstore_read: the NVRAM adapter read. A length other than 4 bytes
returns 0 without touching the register (no value is produced); a 4-byte
payload is a single unconfirmed read of the general purpose register,
returned as the produced value. -/
def nvstore_read (s : Di) (_reg : Nat) (bytes : Nat) : Int × Option Nat :=
  if bytes ≠ 4 then (0, none)
  else (0, some (readl s.regs DGPR))

/-- di_handle_failure_state: inspect the failure-state hard lock. Both
branches only emit the advisory and return -ENODEV; no register is written.
The dsr argument is only logged in the source. -/
def di_handle_failure_state (s : Di) (_dsr : Nat) : Int × Di :=
  let dcr := readl s.regs DCR
  if dcr &&& DCR_FSHL ≠ 0 then
    (-ENODEV, di_what_is_to_be_done s "battery")
  else
    (-ENODEV, di_what_is_to_be_done s "main")

/-- di_handle_valid_state: arm the alarm compare registers with the unset
sentinel, then clear the clock alarm flag when the status snapshot shows it
set. Always returns 0. -/
def di_handle_valid_state (s : Di) (dsr : Nat) : Int × Di :=
  let s := di_write_busy_wait s DCAMR_UNSET DCAMR
  let s := di_write_busy_wait s 0 DCALR
  let s := if dsr &&& DSR_CAF ≠ 0 then di_write_busy_wait s DSR_CAF DSR else s
  (0, s)

/-- di_handle_invalid_state: disable all tamper sources, soft-lock the
tamper configuration with a whole-register store, then check the time
counter locks on the control value read back; on success clear NVF and TCO,
re-enable the counter, rewrite the saved seconds and fall through to
di_handle_valid_state on a fresh status read. The nested source check
(lock tests made only when TCE is clear) is written here as flattened
conjunctions; the warning on a nonzero saved seconds value is log only and
omitted. The dsr argument is unused in the source body as well. -/
def di_handle_invalid_state (s : Di) (_dsr : Nat) : Int × Di :=
  let s := di_write_busy_wait s 0x00000000 DTCR
  let s := di_write_busy_wait s DCR_TDCSL DCR
  let sec := readl s.regs DTCMR
  let dcr := readl s.regs DCR
  if dcr &&& DCR_TCE = 0 ∧ dcr &&& DCR_TCHL ≠ 0 then
    (-ENODEV, di_what_is_to_be_done s "battery")
  else if dcr &&& DCR_TCE = 0 ∧ dcr &&& DCR_TCSL ≠ 0 then
    (-ENODEV, di_what_is_to_be_done s "main")
  else
    let s := di_write_busy_wait s DSR_NVF DSR
    let s := di_write_busy_wait s DSR_TCO DSR
    let s := di_write_busy_wait s (dcr ||| DCR_TCE) DCR
    let s := di_write_busy_wait s sec DTCMR
    di_handle_valid_state s (readl s.regs DSR)

/-- The tamper-class status bits checked and cleared by
di_handle_invalid_and_failure_state. -/
def tamper_status_mask : Nat :=
  DSR_WTD ||| DSR_ETBD ||| DSR_ETAD ||| DSR_EBD ||| DSR_SAD |||
  DSR_TTD ||| DSR_CTD ||| DSR_VTD ||| DSR_MCO ||| DSR_TCO

/-- di_handle_invalid_and_failure_state: when a tamper-class status bit is
set, the tamper-configuration locks are checked first (the source reads DCR
inside that branch; readl is pure, so reading it in the flattened condition
is observationally identical). Otherwise all tamper sources are disabled,
the tamper-class status bits are cleared, the security violation flag is
cleared and re-checked, and on success recovery continues with
di_handle_invalid_state. The warning about leftover status bits is log only
and omitted. -/
def di_handle_invalid_and_failure_state (s : Di) (dsr : Nat) : Int × Di :=
  if dsr &&& tamper_status_mask ≠ 0 ∧ readl s.regs DCR &&& DCR_TDCHL ≠ 0 then
    (-ENODEV, di_what_is_to_be_done s "battery")
  else if dsr &&& tamper_status_mask ≠ 0 ∧ readl s.regs DCR &&& DCR_TDCSL ≠ 0 then
    (-ENODEV, di_what_is_to_be_done s "main")
  else
    let s := di_write_busy_wait s 0x00000000 DTCR
    let s := di_write_busy_wait s (dsr &&& tamper_status_mask) DSR
    let s := di_write_busy_wait s DSR_SVF DSR
    let dsr2 := readl s.regs DSR
    if dsr2 &&& DSR_SVF ≠ 0 then
      (-ENODEV, di_what_is_to_be_done s "battery")
    else
      di_handle_invalid_state s dsr2

/-- The four persistent states of the unit. -/
inductive StateKind where
  | valid
  | invalid
  | failure
  | invalidAndFailure
  deriving DecidableEq

/-- The classification switch of di_handle_state: the status word masked to
the non-valid and security-violation bits selects the handler. -/
def di_classify (dsr : Nat) : StateKind :=
  if dsr &&& (DSR_NVF ||| DSR_SVF) = DSR_NVF then .invalid
  else if dsr &&& (DSR_NVF ||| DSR_SVF) = DSR_SVF then .failure
  else if dsr &&& (DSR_NVF ||| DSR_SVF) = (DSR_NVF ||| DSR_SVF) then .invalidAndFailure
  else .valid

/-- di_handle_state: read the status register once, classify it, dispatch
to the matching recovery procedure and return its result. -/
def di_handle_state (s : Di) : Int × Di :=
  let dsr := readl s.regs DSR
  match di_classify dsr with
  | .invalid => di_handle_invalid_state s dsr
  | .failure => di_handle_failure_state s dsr
  | .invalidAndFailure => di_handle_invalid_and_failure_state s dsr
  | .valid => di_handle_valid_state s dsr

/-- di_write_wait, modelled at the level of its poll loop. After the
initial register write the loop repeatedly reads the status register and
then, only if neither the write-complete nor the write-error flag is set in
that snapshot, consults is_timeout against the independent monotonic clock.
The trace lists, per iteration, the observed status snapshot and the
is_timeout answer at that iteration. Returns some 0 on a completed write,
some (-EIOerr) on a write error or on timeout, and none when the trace is
exhausted without a decision (the concrete loop would keep polling). -/
def di_write_wait_polls : List (Nat × Bool) → Option Int
  | [] => none
  | (dsr, tmo) :: rest =>
    if dsr &&& (DSR_WCF ||| DSR_WEF) ≠ 0 then
      some (if dsr &&& DSR_WEF ≠ 0 then -EIOerr else 0)
    else if tmo then some (-EIOerr)
    else di_write_wait_polls rest

/-- dryice_rtc_set_time: permission checks on fresh control and status
reads, then three confirmed writes in order. Each di_write_wait call is
abstracted by the raw register write it performs plus a boolean outcome
drawn from ow (true = the write completed without error); a false outcome
makes the call return -EIOerr, which set_time surfaces at once. The
best-effort write-error cleanup inside di_write_wait is not modelled. The
seconds value comes from the calendar conversion in the source and is taken
here directly as a Nat. -/
def dryice_rtc_set_time (s : Di) (secs : Nat) (ow : List Bool) : Int × Di :=
  let dcr := readl s.regs DCR
  let dsr := readl s.regs DSR
  if (dcr &&& DCR_TCE = 0 ∨ dsr &&& DSR_SVF ≠ 0) ∧ dcr &&& DCR_TCHL ≠ 0 then
    (-EPERM, di_what_is_to_be_done s "battery")
  else if (dcr &&& DCR_TCE = 0 ∨ dsr &&& DSR_SVF ≠ 0) ∧
      (dcr &&& DCR_TCSL ≠ 0 ∨ dsr &&& DSR_SVF ≠ 0) then
    (-EPERM, di_what_is_to_be_done s "main")
  else
    let s := writeReg s 0 DTCLR
    if ow.getD 0 true = false then (-EIOerr, s)
    else
      let s := writeReg s secs DTCMR
      if ow.getD 1 true = false then (-EIOerr, s)
      else
        let s := writeReg s (readl s.regs DCR ||| DCR_TCE) DCR
        if ow.getD 2 true = false then (-EIOerr, s)
        else (0, s)

/-- Outcomes of the external collaborators called by dryice_rtc_probe:
resource request and clock lookup (some e = error pointer with code e),
clock enable (nonzero = failure), nvmem registration (some e = error
pointer), whether CONFIG_NVMEM is enabled, and rtc registration. -/
structure ProbeEnv where
  memErr : Option Int := none
  clkGetErr : Option Int := none
  clkEnableRc : Int := 0
  nvmemErr : Option Int := none
  nvmemEnabled : Bool := true
  rtcRc : Int := 0
  deriving DecidableEq

/-- Observable outcome of dryice_rtc_probe: the return code, whether the
persistent-storage interface was registered, whether the calendar-time
interface was registered, and the device state left behind. -/
structure ProbeOut where
  ret : Int
  nvmemRegistered : Bool
  rtcRegistered : Bool
  final : Di
  deriving DecidableEq

/-- dryice_rtc_probe: allocate, request resources, enable the clock, mask
all interrupts with a plain DIER write, run the recovery state machine, and
only then register the storage and time interfaces. Any error unwinds
through the error path (clock disable has no observable effect here). A
failed nvmem registration aborts the probe only when CONFIG_NVMEM is
enabled, mirroring the IS_ENABLED guard in the source. -/
def dryice_rtc_probe (env : ProbeEnv) (s : Di) : ProbeOut :=
  match env.memErr with
  | some e => ⟨e, false, false, s⟩
  | none =>
  match env.clkGetErr with
  | some e => ⟨e, false, false, s⟩
  | none =>
  if env.clkEnableRc ≠ 0 then ⟨env.clkEnableRc, false, false, s⟩
  else
    let s := writeReg s 0 DIER
    let rs := di_handle_state s
    if rs.1 ≠ 0 then ⟨rs.1, false, false, rs.2⟩
    else
      let s := rs.2
      match env.nvmemErr with
      | some e =>
        if env.nvmemEnabled then ⟨e, false, false, s⟩
        else
          if env.rtcRc ≠ 0 then ⟨env.rtcRc, false, false, s⟩
          else ⟨0, false, true, s⟩
      | none =>
        if env.rtcRc ≠ 0 then ⟨env.rtcRc, true, false, s⟩
        else ⟨0, true, true, s⟩

/- Register-access unfolding lemmas, one per offset actually used. -/

@[simp] lemma readl_dtcmr (r : Regs) : readl r DTCMR = r.dtcmr := rfl

@[simp] lemma readl_dcr (r : Regs) : readl r DCR = r.dcr := rfl

@[simp] lemma readl_dsr (r : Regs) : readl r DSR = r.dsr := rfl

@[simp] lemma readl_dgpr (r : Regs) : readl r DGPR = r.dgpr := rfl

@[simp] lemma storeReg_dtcmr (r : Regs) (v : Nat) :
    storeReg r DTCMR v = { r with dtcmr := v % 2 ^ 32 } := rfl

@[simp] lemma storeReg_dtclr (r : Regs) (v : Nat) :
    storeReg r DTCLR v = { r with dtclr := v % 2 ^ 32 } := rfl

@[simp] lemma storeReg_dcamr (r : Regs) (v : Nat) :
    storeReg r DCAMR v = { r with dcamr := v % 2 ^ 32 } := rfl

@[simp] lemma storeReg_dcalr (r : Regs) (v : Nat) :
    storeReg r DCALR v = { r with dcalr := v % 2 ^ 32 } := rfl

@[simp] lemma storeReg_dcr (r : Regs) (v : Nat) :
    storeReg r DCR v = { r with dcr := v % 2 ^ 32 } := rfl

@[simp] lemma storeReg_dsr (r : Regs) (v : Nat) :
    storeReg r DSR v = { r with dsr := r.dsr &&& (0xFFFFFFFF ^^^ v % 2 ^ 32) } := rfl

@[simp] lemma storeReg_dier (r : Regs) (v : Nat) :
    storeReg r DIER v = { r with dier := v % 2 ^ 32 } := rfl

@[simp] lemma storeReg_dtcr (r : Regs) (v : Nat) :
    storeReg r DTCR v = { r with dtcr := v % 2 ^ 32 } := rfl

@[simp] lemma storeReg_dgpr (r : Regs) (v : Nat) :
    storeReg r DGPR v = { r with dgpr := v % 2 ^ 32 } := rfl

/-- Claim C2: the claim states that both NVRAM adapter entry points return
InvalidArgument for a payload length other than 4 bytes. In the code both
return 0 (success) in that case, so the claim as stated fails: at bytes = 3
the write returns 0, which is not -EINVAL, and likewise the read. -/
theorem claim_C2_counterexample :
    (nvstore_write ⟨{}, [], []⟩ 0 7 3).1 = 0 ∧
    (nvstore_write ⟨{}, [], []⟩ 0 7 3).2.writes = [] ∧
    (nvstore_read ⟨{}, [], []⟩ 0 3).1 = 0 ∧
    (0 : Int) ≠ -EINVAL := by
  decide

/-- Claim C2, amended: for every payload length other than 4 bytes both
NVRAM adapter entry points return 0 (success, not InvalidArgument) and
perform zero accesses to the general-purpose register; for a 4-byte payload
they perform exactly one unconfirmed single-register access. -/
theorem claim_C2_amended (s : Di) (reg val bytes : Nat) :
    (bytes ≠ 4 →
      nvstore_write s reg val bytes = (0, s) ∧
      nvstore_read s reg bytes = (0, none)) ∧
    (bytes = 4 →
      (nvstore_write s reg val bytes).1 = 0 ∧
      (nvstore_write s reg val bytes).2.writes =
        s.writes ++ [(DGPR, val % 2 ^ 32)] ∧
      nvstore_read s reg bytes = (0, some s.regs.dgpr)) := by
  constructor
  · intro h
    simp [nvstore_write, nvstore_read, h]
  · intro h
    simp [nvstore_write, nvstore_read, writeReg, h]

theorem claim_C2_witness :
    (nvstore_write ⟨{}, [], []⟩ 0 7 4).1 = 0 ∧
    (nvstore_write ⟨{}, [], []⟩ 0 7 4).2.writes = [] ++ [(DGPR, 7 % 2 ^ 32)] ∧
    nvstore_read ⟨{}, [], []⟩ 0 4 = (0, some (Regs.dgpr {})) :=
  (claim_C2_amended ⟨{}, [], []⟩ 0 7 4).2 rfl

/-- Claim C6: for every control-register value, di_handle_failure_state
returns -ENODEV (never success) without any register write, and names the
battery supply exactly when the failure-state hard-lock bit is set, the
main supply otherwise. -/
theorem claim_C6_failure_state (s : Di) (dsr : Nat) :
    (di_handle_failure_state s dsr).1 = -ENODEV ∧
    (di_handle_failure_state s dsr).2.writes = s.writes ∧
    (di_handle_failure_state s dsr).2.regs = s.regs ∧
    (s.regs.dcr &&& DCR_FSHL ≠ 0 →
      (di_handle_failure_state s dsr).2.msgs = s.msgs ++ ["battery"]) ∧
    (s.regs.dcr &&& DCR_FSHL = 0 →
      (di_handle_failure_state s dsr).2.msgs = s.msgs ++ ["main"]) := by
  by_cases h : s.regs.dcr &&& DCR_FSHL = 0 <;>
    simp [di_handle_failure_state, di_what_is_to_be_done, h]

theorem claim_C6_witness :
    ((di_handle_failure_state ⟨{ dcr := DCR_FSHL }, [], []⟩ 0).1 = -ENODEV ∧
     (di_handle_failure_state ⟨{ dcr := DCR_FSHL }, [], []⟩ 0).2.msgs =
       [] ++ ["battery"]) ∧
    ((di_handle_failure_state ⟨{}, [], []⟩ 0).1 = -ENODEV ∧
     (di_handle_failure_state ⟨{}, [], []⟩ 0).2.msgs = [] ++ ["main"]) :=
  ⟨⟨(claim_C6_failure_state ⟨{ dcr := DCR_FSHL }, [], []⟩ 0).1,
    (claim_C6_failure_state ⟨{ dcr := DCR_FSHL }, [], []⟩ 0).2.2.2.1 (by decide)⟩,
   ⟨(claim_C6_failure_state ⟨{}, [], []⟩ 0).1,
    (claim_C6_failure_state ⟨{}, [], []⟩ 0).2.2.2.2 (by decide)⟩⟩

/-- Clearing a mask bit by a write-1-to-clear store leaves that bit clear,
for any prior register value. -/
lemma land_clear_of_mask (m c : Nat) (h : m &&& c = 0) (a : Nat) :
    (a &&& m) &&& c = 0 := by
  rw [Nat.land_assoc, h, Nat.and_zero]

/-- Claim C8: di_handle_valid_state, called on the freshly read status
snapshot, always returns 0; afterwards the alarm-compare register holds the
all-ones disarm sentinel and the clock-alarm status flag is clear, a
dedicated write-1-to-clear store having been issued exactly when the flag
was set on entry. -/
theorem claim_C8_valid_state (s : Di) :
    (di_handle_valid_state s (readl s.regs DSR)).1 = 0 ∧
    (di_handle_valid_state s (readl s.regs DSR)).2.regs.dcamr = DCAMR_UNSET ∧
    (di_handle_valid_state s (readl s.regs DSR)).2.regs.dsr &&& DSR_CAF = 0 ∧
    (s.regs.dsr &&& DSR_CAF ≠ 0 →
      (DSR, DSR_CAF) ∈ (di_handle_valid_state s (readl s.regs DSR)).2.writes) := by
  have hcaf : DSR_CAF % 4294967296 = DSR_CAF := by decide
  have hun : DCAMR_UNSET < 4294967296 := by decide
  have hmask : (4294967295 ^^^ DSR_CAF % 4294967296) &&& DSR_CAF = 0 := by decide
  by_cases h : s.regs.dsr &&& DSR_CAF = 0
  · simp [di_handle_valid_state, di_write_busy_wait, writeReg, h, hun]
  · have hmask2 : (4294967295 ^^^ DSR_CAF) &&& DSR_CAF = 0 := by decide
    simp [di_handle_valid_state, di_write_busy_wait, writeReg, h, hun, hcaf,
      land_clear_of_mask _ _ hmask, land_clear_of_mask _ _ hmask2]

theorem claim_C8_witness :
    (di_handle_valid_state ⟨{ dsr := DSR_CAF }, [], []⟩
        (readl ({ dsr := DSR_CAF } : Regs) DSR)).1 = 0 ∧
    (DSR, DSR_CAF) ∈ (di_handle_valid_state ⟨{ dsr := DSR_CAF }, [], []⟩
        (readl ({ dsr := DSR_CAF } : Regs) DSR)).2.writes :=
  ⟨(claim_C8_valid_state ⟨{ dsr := DSR_CAF }, [], []⟩).1,
   (claim_C8_valid_state ⟨{ dsr := DSR_CAF }, [], []⟩).2.2.2 (by decide)⟩

/-- The two classification bits of any status word take one of four values. -/
lemma classify_mask_cases (d : Nat) :
    d &&& (DSR_NVF ||| DSR_SVF) = 0 ∨ d &&& (DSR_NVF ||| DSR_SVF) = 1 ∨
    d &&& (DSR_NVF ||| DSR_SVF) = 2 ∨ d &&& (DSR_NVF ||| DSR_SVF) = 3 := by
  have h : d &&& (DSR_NVF ||| DSR_SVF) ≤ DSR_NVF ||| DSR_SVF := Nat.and_le_right
  have h3 : DSR_NVF ||| DSR_SVF = 3 := by decide
  rw [h3] at h ⊢
  omega

/-- The NVF bit of a status word is recoverable from its classification
bits, and likewise the SVF bit. -/
lemma classify_bit_split (d : Nat) :
    d &&& DSR_NVF = (d &&& (DSR_NVF ||| DSR_SVF)) &&& DSR_NVF ∧
    d &&& DSR_SVF = (d &&& (DSR_NVF ||| DSR_SVF)) &&& DSR_SVF := by
  constructor
  · rw [Nat.land_assoc]
    have h : (DSR_NVF ||| DSR_SVF) &&& DSR_NVF = DSR_NVF := by decide
    rw [h]
  · rw [Nat.land_assoc]
    have h : (DSR_NVF ||| DSR_SVF) &&& DSR_SVF = DSR_SVF := by decide
    rw [h]

/-- Claim C4: classification is a total pure function of exactly the
non-valid and security-violation status bits. Each of the four bit
combinations selects exactly one state, any two status words agreeing on
those two bits classify identically, and di_handle_state dispatches to the
handler selected by di_classify on the freshly read status word. -/
theorem claim_C4_classify :
    (∀ d : Nat,
      (d &&& DSR_NVF = 0 ∧ d &&& DSR_SVF = 0 → di_classify d = .valid) ∧
      (d &&& DSR_NVF ≠ 0 ∧ d &&& DSR_SVF = 0 → di_classify d = .invalid) ∧
      (d &&& DSR_NVF = 0 ∧ d &&& DSR_SVF ≠ 0 → di_classify d = .failure) ∧
      (d &&& DSR_NVF ≠ 0 ∧ d &&& DSR_SVF ≠ 0 →
        di_classify d = .invalidAndFailure)) ∧
    (∀ d e : Nat, d &&& (DSR_NVF ||| DSR_SVF) = e &&& (DSR_NVF ||| DSR_SVF) →
      di_classify d = di_classify e) ∧
    (∀ s : Di, di_handle_state s =
      match di_classify (readl s.regs DSR) with
      | .invalid => di_handle_invalid_state s (readl s.regs DSR)
      | .failure => di_handle_failure_state s (readl s.regs DSR)
      | .invalidAndFailure =>
          di_handle_invalid_and_failure_state s (readl s.regs DSR)
      | .valid => di_handle_valid_state s (readl s.regs DSR)) := by
  have hnvf2 : DSR_NVF = 2 := by decide
  have hsvf1 : DSR_SVF = 1 := by decide
  have hor : (2 : Nat) ||| 1 = 3 := by decide
  have e20 : (0 : Nat) &&& 2 = 0 := by decide
  have e21 : (1 : Nat) &&& 2 = 0 := by decide
  have e22 : (2 : Nat) &&& 2 = 2 := by decide
  have e23 : (3 : Nat) &&& 2 = 2 := by decide
  have e10 : (0 : Nat) &&& 1 = 0 := by decide
  have e11 : (1 : Nat) &&& 1 = 1 := by decide
  have e12 : (2 : Nat) &&& 1 = 0 := by decide
  have e13 : (3 : Nat) &&& 1 = 1 := by decide
  refine ⟨?_, ?_, fun s => rfl⟩
  · intro d
    obtain ⟨hn, hs⟩ := classify_bit_split d
    rcases classify_mask_cases d with h | h | h | h <;>
      (simp only [hnvf2, hsvf1, hor] at hn hs h ⊢
       rw [h] at hn hs
       simp only [e20, e21, e22, e23, e10, e11, e12, e13,
         Nat.and_one_is_mod] at hn hs
       simp [di_classify, hnvf2, hsvf1, hor, h, hn, hs])
  · intro d e h
    unfold di_classify
    rw [h]

theorem claim_C4_witness :
    di_classify 0 = .valid ∧ di_classify (DSR_NVF ||| DSR_WTD) = .invalid ∧
    di_classify DSR_SVF = .failure ∧
    di_classify (DSR_NVF ||| DSR_SVF) = .invalidAndFailure ∧
    di_classify DSR_WTD = di_classify 0 :=
  ⟨(claim_C4_classify.1 0).1 ⟨by decide, by decide⟩,
   ((claim_C4_classify.1 (DSR_NVF ||| DSR_WTD)).2.1 ⟨by decide, by decide⟩),
   ((claim_C4_classify.1 DSR_SVF).2.2.1 ⟨by decide, by decide⟩),
   ((claim_C4_classify.1 (DSR_NVF ||| DSR_SVF)).2.2.2 ⟨by decide, by decide⟩),
   claim_C4_classify.2.1 DSR_WTD 0 (by decide)⟩

lemma or_eq_zero_left (a b : Nat) (h : a ||| b = 0) : a = 0 := by
  apply Nat.eq_of_testBit_eq
  intro i
  have hh := congrArg (fun x => Nat.testBit x i) h
  simp [Nat.testBit_or] at hh ⊢
  exact hh.1

/-- A snapshot with the write-complete flag set trips the poll condition. -/
lemma flag_mask_of_wcf (a : Nat) (h : a &&& DSR_WCF ≠ 0) :
    a &&& (DSR_WCF ||| DSR_WEF) ≠ 0 := by
  rw [Nat.and_or_distrib_left]
  intro h0
  exact h (or_eq_zero_left _ _ h0)

/-- A snapshot that trips the poll condition with the write-error flag
clear must have the write-complete flag set. -/
lemma wcf_of_flag_mask (a : Nat) (h : a &&& (DSR_WCF ||| DSR_WEF) ≠ 0)
    (hw : a &&& DSR_WEF = 0) : a &&& DSR_WCF ≠ 0 := by
  rw [Nat.and_or_distrib_left, hw, Nat.or_zero] at h
  exact h

/-- Claim C5: over every sequence of (status snapshot, is_timeout) poll
observations, the write-wait loop (1) returns success only when some
observed snapshot has the write-complete flag set and the write-error flag
clear, (2) returns -EIOerr when neither flag is ever observed and the timeout
fires within the trace, and (3) returns success when the completion bit is
set in the final poll even though the timeout would be declared at that
same iteration, because is_timeout is consulted only after each status
read. -/
theorem claim_C5_write_wait :
    (∀ trace : List (Nat × Bool), di_write_wait_polls trace = some 0 →
      ∃ d b, (d, b) ∈ trace ∧ d &&& DSR_WCF ≠ 0 ∧ d &&& DSR_WEF = 0) ∧
    (∀ trace : List (Nat × Bool),
      (∀ p ∈ trace, p.1 &&& (DSR_WCF ||| DSR_WEF) = 0) →
      (∃ p ∈ trace, p.2 = true) →
      di_write_wait_polls trace = some (-EIOerr)) ∧
    (∀ (pre : List (Nat × Bool)) (d : Nat),
      (∀ p ∈ pre, p.1 &&& (DSR_WCF ||| DSR_WEF) = 0 ∧ p.2 = false) →
      d &&& DSR_WCF ≠ 0 → d &&& DSR_WEF = 0 →
      di_write_wait_polls (pre ++ [(d, true)]) = some 0) := by
  refine ⟨?_, ?_, ?_⟩
  · intro trace
    induction trace with
    | nil => intro h; simp [di_write_wait_polls] at h
    | cons p rest ih =>
      obtain ⟨d, b⟩ := p
      intro h
      simp only [di_write_wait_polls] at h
      by_cases hf : d &&& (DSR_WCF ||| DSR_WEF) = 0
      · rw [if_neg (by simp [hf])] at h
        cases b with
        | true => rw [if_pos rfl] at h; exact absurd (Option.some.inj h) (by decide)
        | false =>
          have hfb : ¬(false = true) := by decide
          rw [if_neg hfb] at h
          obtain ⟨d2, b2, hmem, hrest⟩ := ih h
          exact ⟨d2, b2, List.mem_cons_of_mem _ hmem, hrest⟩
      · rw [if_pos hf] at h
        have hv := Option.some.inj h
        by_cases hw : d &&& DSR_WEF = 0
        · exact ⟨d, b, List.mem_cons_self _ _, wcf_of_flag_mask d hf hw, hw⟩
        · rw [if_pos hw] at hv; exact absurd hv (by decide)
  · intro trace
    induction trace with
    | nil => intro _ hex; simp at hex
    | cons p rest ih =>
      obtain ⟨d, b⟩ := p
      intro hflags hex
      have hd : d &&& (DSR_WCF ||| DSR_WEF) = 0 := hflags (d, b) (List.mem_cons_self _ _)
      simp only [di_write_wait_polls]
      rw [if_neg (by simp [hd])]
      cases b with
      | true => rw [if_pos rfl]
      | false =>
        have hfb : ¬(false = true) := by decide
        rw [if_neg hfb]
        apply ih
        · intro q hq; exact hflags q (List.mem_cons_of_mem _ hq)
        · rcases hex with ⟨q, hq, hq2⟩
          rcases List.mem_cons.mp hq with he | hm
          · rw [he] at hq2; simp at hq2
          · exact ⟨q, hm, hq2⟩
  · intro pre d
    induction pre with
    | nil =>
      intro _ hwcf hwef
      simp only [List.nil_append, di_write_wait_polls]
      rw [if_pos (flag_mask_of_wcf d hwcf), if_neg (by simp [hwef])]
    | cons q pre ih =>
      obtain ⟨dq, bq⟩ := q
      intro hpre hwcf hwef
      have hq1 : dq &&& (DSR_WCF ||| DSR_WEF) = 0 :=
        (hpre (dq, bq) (List.mem_cons_self _ _)).1
      have hq2 : bq = false := (hpre (dq, bq) (List.mem_cons_self _ _)).2
      have hfb : ¬(false = true) := by decide
      simp only [List.cons_append, di_write_wait_polls]
      rw [if_neg (by simp [hq1]), hq2, if_neg hfb]
      exact ih (fun p hp => hpre p (List.mem_cons_of_mem _ hp)) hwcf hwef

theorem claim_C5_witness :
    di_write_wait_polls [(0, false), (DSR_WCF, true)] = some 0 :=
  claim_C5_write_wait.2.2 [(0, false)] DSR_WCF
    (by intro p hp; simp at hp; simp [hp]) (by decide) (by decide)

/-- Claim C1 counterexample: the claim demands rejection whenever the time
hard-lock bit is set, regardless of the time-counter-enable bit. With the
enable bit set, the hard lock set and the security-violation flag clear,
set_time does not reject: it returns 0, not -EPERM, because the lock checks
are guarded by the enable and violation condition. -/
theorem claim_C1_counterexample :
    DCR_TCE ||| DCR_TCHL &&& DCR_TCHL ≠ 0 ∧
    (dryice_rtc_set_time ⟨{ dcr := DCR_TCE ||| DCR_TCHL }, [], []⟩ 0 []).1 = 0 ∧
    (0 : Int) ≠ -EPERM := by
  decide

/-- Claim C1, amended: set_time returns -EPERM exactly when the enabling
guard fires (time-counter-enable clear, or security-violation set) and one
of the three trigger bits (hard lock, soft lock, security violation) is
set. In particular the security-violation flag alone always rejects, while
the hard and soft locks reject only when the enable bit is clear or the
violation flag is set; a rejection performs no register write. -/
theorem claim_C1_amended (s : Di) (secs : Nat) (ow : List Bool) :
    ((dryice_rtc_set_time s secs ow).1 = -EPERM ↔
      ((s.regs.dcr &&& DCR_TCE = 0 ∨ s.regs.dsr &&& DSR_SVF ≠ 0) ∧
       (s.regs.dcr &&& DCR_TCHL ≠ 0 ∨ s.regs.dcr &&& DCR_TCSL ≠ 0 ∨
        s.regs.dsr &&& DSR_SVF ≠ 0))) ∧
    (s.regs.dsr &&& DSR_SVF ≠ 0 → (dryice_rtc_set_time s secs ow).1 = -EPERM) ∧
    ((dryice_rtc_set_time s secs ow).1 = -EPERM →
      (dryice_rtc_set_time s secs ow).2.writes = s.writes) := by
  by_cases h1 : (s.regs.dcr &&& DCR_TCE = 0 ∨ s.regs.dsr &&& DSR_SVF ≠ 0) ∧
      s.regs.dcr &&& DCR_TCHL ≠ 0
  · have hrc : dryice_rtc_set_time s secs ow =
        (-EPERM, di_what_is_to_be_done s "battery") := by
      simp only [dryice_rtc_set_time, readl_dcr, readl_dsr, if_pos h1]
    refine ⟨?_, fun _ => by simp [hrc],
      fun _ => by simp [hrc, di_what_is_to_be_done]⟩
    simp only [hrc]
    simp only [ne_eq]
    constructor
    · intro _
      exact ⟨h1.1, Or.inl h1.2⟩
    · intro _
      trivial
  · by_cases h2 : (s.regs.dcr &&& DCR_TCE = 0 ∨ s.regs.dsr &&& DSR_SVF ≠ 0) ∧
        (s.regs.dcr &&& DCR_TCSL ≠ 0 ∨ s.regs.dsr &&& DSR_SVF ≠ 0)
    · have hrc : dryice_rtc_set_time s secs ow =
          (-EPERM, di_what_is_to_be_done s "main") := by
        simp only [dryice_rtc_set_time, readl_dcr, readl_dsr, if_neg h1,
          if_pos h2]
      refine ⟨?_, fun _ => by simp [hrc],
        fun _ => by simp [hrc, di_what_is_to_be_done]⟩
      simp only [hrc]
      simp only [ne_eq]
      constructor
      · intro _
        exact ⟨h2.1, Or.inr h2.2⟩
      · intro _
        trivial
    · have hno : ¬((s.regs.dcr &&& DCR_TCE = 0 ∨ s.regs.dsr &&& DSR_SVF ≠ 0) ∧
          (s.regs.dcr &&& DCR_TCHL ≠ 0 ∨ s.regs.dcr &&& DCR_TCSL ≠ 0 ∨
           s.regs.dsr &&& DSR_SVF ≠ 0)) := by
        intro hc
        rcases hc.2 with hh | hh | hh
        · exact h1 ⟨hc.1, hh⟩
        · exact h2 ⟨hc.1, Or.inl hh⟩
        · exact h2 ⟨hc.1, Or.inr hh⟩
      have hsvf : ¬s.regs.dsr &&& DSR_SVF ≠ 0 := by
        intro hs
        exact h2 ⟨Or.inr hs, Or.inr hs⟩
      have hne : (dryice_rtc_set_time s secs ow).1 ≠ -EPERM := by
        simp only [dryice_rtc_set_time, readl_dcr, readl_dsr, if_neg h1,
          if_neg h2]
        cases o0 : ow.getD 0 true with
        | false => simp [o0, EIOerr, EPERM]
        | true =>
          cases o1 : ow.getD 1 true with
          | false => simp [o0, o1, EIOerr, EPERM]
          | true =>
            cases o2 : ow.getD 2 true with
            | false => simp [o0, o1, o2, EIOerr, EPERM]
            | true => simp [o0, o1, o2, EPERM]
      exact ⟨by simp [hne, hno], fun hs => absurd hs hsvf,
        fun hp => absurd hp hne⟩

theorem claim_C1_witness :
    (dryice_rtc_set_time ⟨{ dsr := DSR_SVF }, [], []⟩ 3 []).1 = -EPERM ∧
    (dryice_rtc_set_time ⟨{ dsr := DSR_SVF }, [], []⟩ 3 []).2.writes = [] :=
  ⟨(claim_C1_amended ⟨{ dsr := DSR_SVF }, [], []⟩ 3 []).2.1 (by decide),
   (claim_C1_amended ⟨{ dsr := DSR_SVF }, [], []⟩ 3 []).2.2
     ((claim_C1_amended ⟨{ dsr := DSR_SVF }, [], []⟩ 3 []).2.1 (by decide))⟩

/-- Claim C3 counterexample: the claim forbids any software write to the
tamper configuration register while the tamper-detect-configuration hard
lock is set. With the hard-lock bit set in the control register,
di_handle_invalid_state nevertheless issues its unconditional
disable-all-tamper-sources write to the tamper configuration register. -/
theorem claim_C3_counterexample :
    DCR_TDCHL &&& DCR_TDCHL ≠ 0 ∧
    (DTCR, 0) ∈
      (di_handle_invalid_state ⟨{ dcr := DCR_TDCHL }, [], []⟩ 0).2.writes := by
  decide

/-- Claim C3, amended: the hard-lock guard exists only in
di_handle_invalid_and_failure_state and only on its tamper path: whenever
the tamper-detect-configuration hard lock is set and a tamper-class status
bit is observed, that procedure performs no write at all (in particular
none to the tamper configuration register) and returns the
battery-cycle-required error. di_handle_invalid_state, by contrast, writes
the tamper configuration register unconditionally, as does
di_handle_invalid_and_failure_state when no tamper-class status bit is
set. -/
theorem claim_C3_amended (s : Di) (dsr : Nat)
    (hl : s.regs.dcr &&& DCR_TDCHL ≠ 0)
    (ht : dsr &&& tamper_status_mask ≠ 0) :
    (di_handle_invalid_and_failure_state s dsr).1 = -ENODEV ∧
    (di_handle_invalid_and_failure_state s dsr).2.writes = s.writes ∧
    (di_handle_invalid_and_failure_state s dsr).2.regs = s.regs ∧
    (di_handle_invalid_and_failure_state s dsr).2.msgs =
      s.msgs ++ ["battery"] := by
  have hc : dsr &&& tamper_status_mask ≠ 0 ∧
      readl s.regs DCR &&& DCR_TDCHL ≠ 0 := ⟨ht, hl⟩
  unfold di_handle_invalid_and_failure_state
  rw [if_pos hc]
  simp [di_what_is_to_be_done]

theorem claim_C3_witness :
    (di_handle_invalid_and_failure_state
        ⟨{ dcr := DCR_TDCHL }, [], []⟩ DSR_WTD).1 = -ENODEV ∧
    (di_handle_invalid_and_failure_state
        ⟨{ dcr := DCR_TDCHL }, [], []⟩ DSR_WTD).2.writes = [] ∧
    (di_handle_invalid_and_failure_state
        ⟨{ dcr := DCR_TDCHL }, [], []⟩ DSR_WTD).2.regs = { dcr := DCR_TDCHL } ∧
    (di_handle_invalid_and_failure_state
        ⟨{ dcr := DCR_TDCHL }, [], []⟩ DSR_WTD).2.msgs = [] ++ ["battery"] :=
  claim_C3_amended ⟨{ dcr := DCR_TDCHL }, [], []⟩ DSR_WTD (by decide) (by decide)

/-- Claim C7: when the permission checks pass, set_time issues exactly
three confirmed writes in order: zero to the time-counter LSB register, the
seconds value to the time-counter MSB register, and the control register
with the time-counter-enable bit asserted on top of the value read back
(unchanged by the two earlier writes). A failing confirmed write surfaces
-EIOerr at once, later writes are not attempted, and the sub-writes that
already succeeded stay applied in the final register state. -/
theorem claim_C7_set_time_sequence (s : Di) (secs : Nat) (ow : List Bool)
    (hsec : secs < 2 ^ 32)
    (h1 : ¬((s.regs.dcr &&& DCR_TCE = 0 ∨ s.regs.dsr &&& DSR_SVF ≠ 0) ∧
        s.regs.dcr &&& DCR_TCHL ≠ 0))
    (h2 : ¬((s.regs.dcr &&& DCR_TCE = 0 ∨ s.regs.dsr &&& DSR_SVF ≠ 0) ∧
        (s.regs.dcr &&& DCR_TCSL ≠ 0 ∨ s.regs.dsr &&& DSR_SVF ≠ 0))) :
    (ow.getD 0 true = false →
      (dryice_rtc_set_time s secs ow).1 = -EIOerr ∧
      (dryice_rtc_set_time s secs ow).2.writes = s.writes ++ [(DTCLR, 0)]) ∧
    (ow.getD 0 true = true → ow.getD 1 true = false →
      (dryice_rtc_set_time s secs ow).1 = -EIOerr ∧
      (dryice_rtc_set_time s secs ow).2.writes =
        s.writes ++ [(DTCLR, 0), (DTCMR, secs)] ∧
      (dryice_rtc_set_time s secs ow).2.regs.dtclr = 0) ∧
    (ow.getD 0 true = true → ow.getD 1 true = true → ow.getD 2 true = false →
      (dryice_rtc_set_time s secs ow).1 = -EIOerr ∧
      (dryice_rtc_set_time s secs ow).2.writes =
        s.writes ++ [(DTCLR, 0), (DTCMR, secs),
          (DCR, (s.regs.dcr ||| DCR_TCE) % 2 ^ 32)] ∧
      (dryice_rtc_set_time s secs ow).2.regs.dtclr = 0 ∧
      (dryice_rtc_set_time s secs ow).2.regs.dtcmr = secs) ∧
    (ow.getD 0 true = true → ow.getD 1 true = true → ow.getD 2 true = true →
      (dryice_rtc_set_time s secs ow).1 = 0 ∧
      (dryice_rtc_set_time s secs ow).2.writes =
        s.writes ++ [(DTCLR, 0), (DTCMR, secs),
          (DCR, (s.regs.dcr ||| DCR_TCE) % 2 ^ 32)] ∧
      (dryice_rtc_set_time s secs ow).2.regs.dtclr = 0 ∧
      (dryice_rtc_set_time s secs ow).2.regs.dtcmr = secs) := by
  have hm : secs % 2 ^ 32 = secs := Nat.mod_eq_of_lt hsec
  refine ⟨?_, ?_, ?_, ?_⟩
  · intro o0
    simp only [dryice_rtc_set_time, readl_dcr, readl_dsr, if_neg h1,
      if_neg h2]
    rw [o0]
    simp [writeReg]
  · intro o0 o1
    simp only [dryice_rtc_set_time, readl_dcr, readl_dsr, if_neg h1,
      if_neg h2]
    rw [o0, o1]
    simp [writeReg, hm]
    omega
  · intro o0 o1 o2
    simp only [dryice_rtc_set_time, readl_dcr, readl_dsr, if_neg h1,
      if_neg h2]
    rw [o0, o1, o2]
    simp [writeReg, hm]
    omega
  · intro o0 o1 o2
    simp only [dryice_rtc_set_time, readl_dcr, readl_dsr, if_neg h1,
      if_neg h2]
    rw [o0, o1, o2]
    simp [writeReg, hm]
    omega

theorem claim_C7_witness :
    (dryice_rtc_set_time ⟨{ dcr := DCR_TCE }, [], []⟩ 12345
        [true, true, true]).1 = 0 ∧
    (dryice_rtc_set_time ⟨{ dcr := DCR_TCE }, [], []⟩ 12345
        [true, true, true]).2.writes =
      [] ++ [(DTCLR, 0), (DTCMR, 12345), (DCR, (DCR_TCE ||| DCR_TCE) % 2 ^ 32)] :=
  ⟨((claim_C7_set_time_sequence ⟨{ dcr := DCR_TCE }, [], []⟩ 12345
      [true, true, true] (by decide) (by decide) (by decide)).2.2.2
      rfl rfl rfl).1,
   ((claim_C7_set_time_sequence ⟨{ dcr := DCR_TCE }, [], []⟩ 12345
      [true, true, true] (by decide) (by decide) (by decide)).2.2.2
      rfl rfl rfl).2.1⟩

/-- Claim C9: the probe registers the storage and time interfaces only
after the recovery state machine (run on the device state after the
interrupt-mask write) reports success; if recovery fails, neither interface
is registered. -/
theorem claim_C9_probe_gating (env : ProbeEnv) (s : Di) :
    ((di_handle_state (writeReg s 0 DIER)).1 ≠ 0 →
      (dryice_rtc_probe env s).nvmemRegistered = false ∧
      (dryice_rtc_probe env s).rtcRegistered = false) ∧
    ((dryice_rtc_probe env s).nvmemRegistered = true ∨
      (dryice_rtc_probe env s).rtcRegistered = true →
      (di_handle_state (writeReg s 0 DIER)).1 = 0) := by
  obtain ⟨memErr, clkGetErr, clkEnableRc, nvmemErr, nvmemEnabled, rtcRc⟩ := env
  cases memErr with
  | some e => simp [dryice_rtc_probe]
  | none =>
    cases clkGetErr with
    | some e => simp [dryice_rtc_probe]
    | none =>
      by_cases hclk : clkEnableRc = 0
      · by_cases hrs : (di_handle_state (writeReg s 0 DIER)).1 = 0
        · cases nvmemErr with
          | some e =>
            cases nvmemEnabled with
            | true => simp [dryice_rtc_probe, hclk, hrs]
            | false =>
              by_cases hrtc : rtcRc = 0 <;>
                simp [dryice_rtc_probe, hclk, hrs, hrtc]
          | none =>
            by_cases hrtc : rtcRc = 0 <;>
              simp [dryice_rtc_probe, hclk, hrs, hrtc]
        · simp [dryice_rtc_probe, hclk, hrs]
      · simp [dryice_rtc_probe, hclk]

theorem claim_C9_witness :
    ((dryice_rtc_probe {} ⟨{ dsr := DSR_SVF }, [], []⟩).nvmemRegistered = false ∧
     (dryice_rtc_probe {} ⟨{ dsr := DSR_SVF }, [], []⟩).rtcRegistered = false) ∧
    (di_handle_state (writeReg ⟨{}, [], []⟩ 0 DIER)).1 = 0 :=
  ⟨(claim_C9_probe_gating {} ⟨{ dsr := DSR_SVF }, [], []⟩).1 (by decide),
   (claim_C9_probe_gating {} ⟨{}, [], []⟩).2 (Or.inl (by decide))⟩

/-- The writes of di_handle_valid_state extend the entry trace with the two
alarm-compare stores, possibly followed by the alarm-flag clear. -/
lemma di_handle_valid_state_writes_shape (s : Di) (dsr : Nat) :
    ∃ t, (di_handle_valid_state s dsr).2.writes =
      s.writes ++ [(DCAMR, DCAMR_UNSET), (DCALR, 0)] ++ t := by
  have hun : DCAMR_UNSET < 4294967296 := by decide
  by_cases h : dsr &&& DSR_CAF = 0
  · refine ⟨[], ?_⟩
    simp [di_handle_valid_state, di_write_busy_wait, writeReg, h, hun]
  · refine ⟨[(DSR, DSR_CAF % 2 ^ 32)], ?_⟩
    simp [di_handle_valid_state, di_write_busy_wait, writeReg, h, hun]

/-- Same shape fact, with the entry trace given explicitly so the lemma can
be applied by unification against a computed device state. -/
lemma di_handle_valid_state_writes_app (s : Di) (dsr : Nat)
    (pre : List (Nat × Nat)) (hw : s.writes = pre) :
    ∃ t, (di_handle_valid_state s dsr).2.writes = pre ++ t := by
  obtain ⟨t, ht⟩ := di_handle_valid_state_writes_shape s dsr
  exact ⟨[(DCAMR, DCAMR_UNSET), (DCALR, 0)] ++ t,
    by rw [ht, hw, List.append_assoc]⟩

lemma writeReg_writes (s : Di) (v r : Nat) :
    (writeReg s v r).writes = s.writes ++ [(r, v % 2 ^ 32)] := rfl

lemma writeReg_regs (s : Di) (v r : Nat) :
    (writeReg s v r).regs = storeReg s.regs r v := rfl

lemma di_write_busy_wait_eq (s : Di) (v r : Nat) :
    di_write_busy_wait s v r = writeReg s v r := rfl

/-- Claim C10: the soft-lock step of di_handle_invalid_state stores exactly
the tamper-soft-lock bit as a whole-register overwrite (the written value
does not depend on the previous control contents, and the bit pattern has
the time-counter-enable and monotonic-counter-enable bits clear, and both
time locks clear); consequently the enable check always sees the enable bit
clear, neither lock test can fire, and the final control write asserts only
the enable bit on top of the read-back value, giving the fixed six-write
order below for every initial state. -/
theorem claim_C10_soft_lock_overwrite (s : Di) (dsr : Nat) :
    DCR_TDCSL &&& DCR_TCE = 0 ∧ DCR_TDCSL &&& DCR_MCE = 0 ∧
    DCR_TDCSL &&& DCR_TCHL = 0 ∧ DCR_TDCSL &&& DCR_TCSL = 0 ∧
    ∃ t, (di_handle_invalid_state s dsr).2.writes =
      s.writes ++ [(DTCR, 0), (DCR, DCR_TDCSL), (DSR, DSR_NVF), (DSR, DSR_TCO),
        (DCR, DCR_TDCSL ||| DCR_TCE), (DTCMR, s.regs.dtcmr % 2 ^ 32)] ++ t := by
  refine ⟨by decide, by decide, by decide, by decide, ?_⟩
  have h1 : ¬(DCR_TDCSL % 2 ^ 32 &&& DCR_TCE = 0 ∧
      DCR_TDCSL % 2 ^ 32 &&& DCR_TCHL ≠ 0) := by decide
  have h2 : ¬(DCR_TDCSL % 2 ^ 32 &&& DCR_TCE = 0 ∧
      DCR_TDCSL % 2 ^ 32 &&& DCR_TCSL ≠ 0) := by decide
  simp only [di_handle_invalid_state, di_write_busy_wait_eq, writeReg_regs,
    storeReg_dtcr, storeReg_dcr, readl_dtcmr, readl_dcr]
  rw [if_neg h1, if_neg h2]
  apply di_handle_valid_state_writes_app
  simp only [writeReg_writes, List.append_assoc]
  have e0 : (0 : Nat) % 2 ^ 32 = 0 := by decide
  have e1 : DCR_TDCSL % 2 ^ 32 = DCR_TDCSL := by decide
  have e2 : DSR_NVF % 2 ^ 32 = DSR_NVF := by decide
  have e3 : DSR_TCO % 2 ^ 32 = DSR_TCO := by decide
  have e4 : (DCR_TDCSL % 2 ^ 32 ||| DCR_TCE) % 2 ^ 32 =
      DCR_TDCSL ||| DCR_TCE := by decide
  have e5 : (DCR_TDCSL ||| DCR_TCE) % 2 ^ 32 = DCR_TDCSL ||| DCR_TCE := by
    decide
  simp only [e0, e1, e2, e3, e4, e5, List.singleton_append,
    List.cons_append, List.nil_append]

end DryIce
